import Mathlib

/-!
The server forwarding engine of copycat (`src/serv.c`).

A shallow embedding of `tun_serv_in`, `tun_serv_out` and the select loop of
`tun_serv`, followed by theorems about the session table they maintain.

Conventions of the embedding:

* a byte is a `Nat`; multi-byte reads reduce each byte modulo 256;
* C `int` values (`recvd`, `sport`, `tcp_port`, `sel`, `loop`) are `Int`;
* what a system call delivers (the return value, the buffer contents, the
  sender address) is an input of the handler; what a handler asks of the
  system (`xsendto`, `xwrite`) is recorded in a trace of calls;
* `die` ends the process: it is recorded with the `errno` set before the
  call, and nothing runs after it;
* a read or receive that fails ends the process inside its wrapper; the
  handlers with that first step are `tun_serv_in_call` and `tun_serv_out_call`;
* `debug_print` writes to stderr only and is not recorded.
-/

namespace Copycat

/-- The `errno` values that `serv.c` sets itself before calling `die`. -/
inductive Errno where
  | EFAULT
  | EUSERS
deriving DecidableEq, Repr

/-- The part of a `struct sockaddr_in` that `serv.c` looks at: the two bytes
of `sin_port` in memory (network) order, and the remaining address bytes
(`sin_addr`) as one number. -/
structure sockaddr_in where
  sin_port_hi : Nat
  sin_port_lo : Nat
  sin_addr : Nat
deriving DecidableEq, Repr

/-- The function `ntohs` applied to the 16-bit object whose bytes in memory are `b0`, `b1`:
the value is the big-endian reading of the two bytes on every host. -/
def ntohs (b0 b1 : Nat) : Nat :=
  (b0 % 256) * 256 + b1 % 256

/-- Modelled from the spec: `struct tun_rec` is declared in `state.h`, which is
not among the sources. The fields are those `serv.c` uses (`sa`, `slen`,
`sport`); §3 calls them `remote_address` and `source_port`. -/
structure tun_rec where
  sa : sockaddr_in
  slen : Nat
  sport : Int
deriving DecidableEq, Repr

/-- Modelled from the spec: the session table is a GLib hash table created in
`init_tun_state` (`state.c`, not among the sources). §4.1 gives it lookup by
the value of the source port, so it is an association list compared on the
`int` key. -/
abbrev GHashTable := List (Int × tun_rec)

/-- GLib `g_hash_table_lookup`: the value stored under `key`, if any. -/
def g_hash_table_lookup (t : GHashTable) (key : Int) : Option tun_rec :=
  match t with
  | [] => none
  | (k, v) :: rest => if k = key then some v else g_hash_table_lookup rest key

/-- GLib `g_hash_table_size`: the number of key/value pairs. -/
def g_hash_table_size (t : GHashTable) : Nat :=
  t.length

/-- GLib `g_hash_table_insert`: a key already present keeps its place and gets the
new value; a new key adds a pair. -/
def g_hash_table_insert (t : GHashTable) (key : Int) (value : tun_rec) : GHashTable :=
  match t with
  | [] => [(key, value)]
  | (k, v) :: rest =>
    if k = key then (k, value) :: rest
    else (k, v) :: g_hash_table_insert rest key value

/-- Modelled from the spec: `struct tun_state` is declared in `state.h`, which
is not among the sources. The fields are those `serv.c` reads (§3, Tunnel
State); `fd_lim` is a count and is compared with the unsigned table size. -/
structure tun_state where
  serv : GHashTable
  tcp_port : Int
  udp_port : Int
  fd_lim : Nat
  inactivity_timeout : Int
deriving DecidableEq, Repr

/-- A call issued to the system by a handler. -/
inductive Call where
  | xsendto (sa : sockaddr_in) (bytes : List Nat)
  | xwrite (bytes : List Nat)
deriving DecidableEq, Repr

/-- What a handler leaves behind: the state, the calls it issued on the UDP
socket and the tunnel, and the `errno` of `die` when it ended the process. -/
structure Outcome where
  state : tun_state
  trace : List Call
  fatal : Option Errno
deriving DecidableEq, Repr

/-- The first `recvd` bytes of the buffer: what `xsendto(.., buf, recvd)` and
`xwrite(.., buf, recvd)` transmit. -/
def payload (buf : List Nat) (recvd : Int) : List Nat :=
  buf.take recvd.toNat

/-- The record `init_tun_rec()` returns once `xrecvfrom` has filled in the
sender address and its length; `sport` is not set yet. -/
def init_tun_rec (sa : sockaddr_in) (slen : Nat) : tun_rec :=
  { sa := sa, slen := slen, sport := 0 }

/-- The expression `(int) ntohs( *((uint16_t *)(buf+22)) )` of serv.c:76: the
two buffer bytes at offsets 22 and 23, read big-endian. -/
def frame_sport (buf : List Nat) : Int :=
  (ntohs (buf.getD 22 0) (buf.getD 23 0) : Nat)

/-- The expression `ntohs(((struct sockaddr_in *)nrec->sa)->sin_port)` of
serv.c:99: the sender port of the received datagram. -/
def sender_sport (sa : sockaddr_in) : Int :=
  (ntohs sa.sin_port_hi sa.sin_port_lo : Nat)

/-- The handler `tun_serv_in` (serv.c:67-89) once `xread` has returned: `recvd`
is the value `xread` returned and `buf` the buffer after the read. The call of
`xread` itself, which can end the process, is in `tun_serv_in_call`. -/
def tun_serv_in (state : tun_state) (recvd : Int) (buf : List Nat) : Outcome :=
  if recvd > 32 then
    let sport : Int := frame_sport buf
    if sport = state.tcp_port then
      { state := state, trace := [], fatal := none }
    else
      match g_hash_table_lookup state.serv sport with
      | some rec =>
        { state := state, trace := [Call.xsendto rec.sa (payload buf recvd)], fatal := none }
      | none =>
        { state := state, trace := [], fatal := some Errno.EFAULT }
  else
    { state := state, trace := [], fatal := none }

/-- The handler `tun_serv_out` (serv.c:91-119) once `xrecvfrom` has returned:
`recvd` is the value it returned, `buf` the buffer after it, `sa` and `slen` the
sender address it stored in `nrec`. The call of `xrecvfrom` itself, which can
end the process, is in `tun_serv_out_call`. -/
def tun_serv_out (state : tun_state) (recvd : Int) (buf : List Nat)
    (sa : sockaddr_in) (slen : Nat) : Outcome :=
  let nrec := init_tun_rec sa slen
  if recvd > 32 then
    let sport : Int := sender_sport sa
    match g_hash_table_lookup state.serv sport with
    | some _ =>
      { state := state, trace := [Call.xwrite (payload buf recvd)], fatal := none }
    | none =>
      if g_hash_table_size state.serv ≤ state.fd_lim then
        { state := { state with
            serv := g_hash_table_insert state.serv sport { nrec with sport := sport } },
          trace := [Call.xwrite (payload buf recvd)],
          fatal := none }
      else
        { state := state, trace := [], fatal := some Errno.EUSERS }
  else
    { state := state, trace := [], fatal := none }

/-- One delivery to a handler, with what the system call hands over. -/
inductive Event where
  | udp (recvd : Int) (buf : List Nat) (sa : sockaddr_in) (slen : Nat)
  | tun (recvd : Int) (buf : List Nat)
deriving DecidableEq, Repr

/-- The handler an event is dispatched to. -/
def handle (state : tun_state) (e : Event) : Outcome :=
  match e with
  | Event.udp recvd buf sa slen => tun_serv_out state recvd buf sa slen
  | Event.tun recvd buf => tun_serv_in state recvd buf

/-- A sequence of handler steps. A step that dies ends the run: later events
are not handled. The trace collects the calls of all steps. -/
def run (state : tun_state) (evs : List Event) : Outcome :=
  match evs with
  | [] => { state := state, trace := [], fatal := none }
  | e :: rest =>
    let o := handle state e
    match o.fatal with
    | some err => { state := o.state, trace := o.trace, fatal := some err }
    | none =>
      let r := run o.state rest
      { state := r.state, trace := o.trace ++ r.trace, fatal := r.fatal }

/-- The state `init_tun_state` hands to the loop: an empty session table. -/
def init_tun_state (tcp_port udp_port : Int) (fd_lim : Nat) (timeout : Int) : tun_state :=
  { serv := [], tcp_port := tcp_port, udp_port := udp_port, fd_lim := fd_lim,
    inactivity_timeout := timeout }

/-- The handlers of `serv.c`, to record which ones an iteration called. -/
inductive Handler where
  | tun_serv_out
  | tun_serv_in
deriving DecidableEq, Repr

/-- What one pass through the `while (loop)` statement of `tun_serv` meets:
the value of `loop` read by the loop condition, the value `xselect` returns,
the two `FD_ISSET` answers, and what each handler would receive. -/
structure Iteration where
  loop : Int
  sel : Int
  udp_ready : Bool
  tun_ready : Bool
  udp_recvd : Int
  udp_buf : List Nat
  udp_sa : sockaddr_in
  udp_slen : Nat
  tun_recvd : Int
  tun_buf : List Nat
deriving DecidableEq, Repr

/-- How the loop of `tun_serv` stands after the iterations it was given. -/
inductive Exit where
  | running
  | stopped
  | timeout
  | died
deriving DecidableEq, Repr

/-- The result of the loop: the handlers' outcome, the handlers called, and
how the loop ended. -/
structure LoopResult where
  out : Outcome
  calls : List Handler
  exit : Exit
deriving DecidableEq, Repr

/-- The body of the `while` statement (serv.c:145-159) for `sel > 0`: the UDP
handler, then the tunnel handler, each when its descriptor is set. -/
def dispatch (state : tun_state) (it : Iteration) : Outcome × List Handler :=
  let o1 : Outcome × List Handler :=
    if it.udp_ready then
      (tun_serv_out state it.udp_recvd it.udp_buf it.udp_sa it.udp_slen, [Handler.tun_serv_out])
    else
      ({ state := state, trace := [], fatal := none }, [])
  match o1.1.fatal with
  | some _ => o1
  | none =>
    if it.tun_ready then
      let o2 := tun_serv_in o1.1.state it.tun_recvd it.tun_buf
      ({ state := o2.state, trace := o1.1.trace ++ o2.trace, fatal := o2.fatal },
        o1.2 ++ [Handler.tun_serv_in])
    else o1

/-- The select loop of `tun_serv` (serv.c:144-160), run on the iterations the
environment provides. -/
def tun_serv_loop (state : tun_state) (its : List Iteration) : LoopResult :=
  match its with
  | [] => { out := { state := state, trace := [], fatal := none }, calls := [],
            exit := Exit.running }
  | it :: rest =>
    if it.loop = 0 then
      { out := { state := state, trace := [], fatal := none }, calls := [],
        exit := Exit.stopped }
    else if it.sel = 0 then
      { out := { state := state, trace := [], fatal := none }, calls := [],
        exit := Exit.timeout }
    else if it.sel > 0 then
      let d := dispatch state it
      match d.1.fatal with
      | some _ => { out := d.1, calls := d.2, exit := Exit.died }
      | none =>
        let r := tun_serv_loop d.1.state rest
        { out := { state := r.out.state, trace := d.1.trace ++ r.out.trace,
                   fatal := r.out.fatal },
          calls := d.2 ++ r.calls, exit := r.exit }
    else
      tun_serv_loop state rest

/-- A well-formed session table: the keys are pairwise distinct and every
record is stored under its own `sport`. -/
def TableWF (t : GHashTable) : Prop :=
  (t.map Prod.fst).Nodup ∧ ∀ kv ∈ t, kv.2.sport = kv.1

/-- A sender address with the given port (host order) and IP address. -/
def mk_sockaddr (port addr : Nat) : sockaddr_in :=
  { sin_port_hi := port / 256, sin_port_lo := port % 256, sin_addr := addr }

/-- A buffer holding a frame of `n` zero bytes whose bytes 22 and 23 carry
`port` in network order. -/
def mk_frame (n port : Nat) : List Nat :=
  ((List.replicate n 0).set 22 (port / 256)).set 23 (port % 256)

/-- A 40-byte datagram from `port` at address `addr`. -/
def datagram40 (port addr : Nat) : Event :=
  Event.udp 40 (List.replicate 40 0) (mk_sockaddr port addr) 16

/-- The byte order of the host the server runs on. -/
inductive ByteOrder where
  | little
  | big
deriving DecidableEq, Repr

/-- The value a host of the given byte order loads from the `uint16_t` object
whose bytes in memory are `b0`, `b1`: the load `*((uint16_t *)(buf+22))` of
serv.c:76. -/
def load_uint16 (o : ByteOrder) (b0 b1 : Nat) : Nat :=
  match o with
  | ByteOrder.big => (b0 % 256) * 256 + b1 % 256
  | ByteOrder.little => (b1 % 256) * 256 + b0 % 256

/-- The conversion `ntohs` as a host of the given byte order performs it on a
16-bit value: nothing on a big-endian host, a swap of the two bytes on a
little-endian one. -/
def ntohs_host (o : ByteOrder) (x : Nat) : Nat :=
  match o with
  | ByteOrder.big => x % 65536
  | ByteOrder.little => (x % 256) * 256 + (x / 256) % 256

/-- The length in bytes of the IPv4 header of a raw IP packet, as the packet
states it: four times the low nibble (IHL) of byte 0. A tunnel frame is such a
packet, because `tun_alloc` sets `IFF_TUN | IFF_NO_PI` (tunalloc.c:393). -/
def ipv4_header_len (pkt : List Nat) : Nat :=
  4 * (pkt.getD 0 0 % 16)

/-- The transport-layer source port of a raw IPv4 packet carrying UDP or TCP,
in the words of the specification: the big-endian 16-bit field at the start of
the transport header. -/
def transport_source_port (pkt : List Nat) : Int :=
  (ntohs (pkt.getD (ipv4_header_len pkt) 0) (pkt.getD (ipv4_header_len pkt + 1) 0) : Nat)

/-- The transport-layer destination port of a raw IPv4 packet carrying UDP or
TCP: the big-endian 16-bit field that follows the source port. -/
def transport_dest_port (pkt : List Nat) : Int :=
  (ntohs (pkt.getD (ipv4_header_len pkt + 2) 0) (pkt.getD (ipv4_header_len pkt + 3) 0) : Nat)

/-- A raw IPv4 packet of `n` bytes, otherwise zero, with version 4, a 20-byte
header (first byte 0x45), the given protocol number and the given transport
source and destination ports. -/
def mk_ipv4 (n proto sport dport : Nat) : List Nat :=
  ((((((List.replicate n 0).set 0 69).set 9 proto).set 20 (sport / 256)).set 21
    (sport % 256)).set 22 (dport / 256)).set 23 (dport % 256)

/-- The record `tun_serv_out` stores for the sender port `p`. -/
def port_rec (p : Nat) : tun_rec :=
  { sa := mk_sockaddr p 0, slen := 16, sport := p }

/-- The 40-byte datagrams from the sender ports `0, 1, .., n - 1`, in order. -/
def datagrams_from_ports (n : Nat) : List Event :=
  (List.range n).map (fun p => datagram40 p 0)

/-- The table that admitting the sender ports `0, 1, .., n - 1` in order
builds. -/
def ports_table (n : Nat) : GHashTable :=
  (List.range n).map (fun (p : Nat) => ((p : Int), port_rec p))

/-- Modelled from the spec: `xread` is defined in `sock.c`, which is not among
the sources; `sock.h:152-160` documents it as the read wrapper "that dies with
failure" and §6 as failing the process on an unrecoverable error. `ret` is what
the system call returns: a count that is not negative is handed to the caller,
and on a negative one the wrapper ends the process (`none`). -/
def xread (ret : Int) : Option Int :=
  if ret < 0 then none else some ret

/-- Modelled from the spec: `xrecvfrom` is defined in `sock.c`, which is not
among the sources; `sock.h:109-119` documents it as the recvfrom wrapper "that
dies with failure". `ret` is what the system call returns: a count that is not
negative is handed to the caller, and on a negative one the wrapper ends the
process (`none`). -/
def xrecvfrom (ret : Int) : Option Int :=
  if ret < 0 then none else some ret

/-- The handler `tun_serv_in` from its first statement (serv.c:69): `xread` is
called, and when it returns the rest of the handler runs on the value returned.
`ret` is what the read system call returns; `none` is the end of the process
inside the wrapper. -/
def tun_serv_in_call (state : tun_state) (ret : Int) (buf : List Nat) : Option Outcome :=
  match xread ret with
  | none => none
  | some recvd => some (tun_serv_in state recvd buf)

/-- The handler `tun_serv_out` from its first statements (serv.c:92-93):
`xrecvfrom` is called, and when it returns the rest of the handler runs on the
value returned. `ret` is what the recvfrom system call returns; `none` is the
end of the process inside the wrapper. -/
def tun_serv_out_call (state : tun_state) (ret : Int) (buf : List Nat)
    (sa : sockaddr_in) (slen : Nat) : Option Outcome :=
  match xrecvfrom ret with
  | none => none
  | some recvd => some (tun_serv_out state recvd buf sa slen)

end Copycat

namespace Copycat

/-! Lemmas on the session table. -/

theorem lookup_eq_none_iff (t : GHashTable) (k : Int) :
    g_hash_table_lookup t k = none ↔ k ∉ t.map Prod.fst := by
  induction t with
  | nil => simp [g_hash_table_lookup]
  | cons kv rest ih =>
    obtain ⟨k0, v0⟩ := kv
    by_cases h : k0 = k
    · simp [g_hash_table_lookup, h]
    · have h2 : ¬ k = k0 := fun e => h e.symm
      simp [g_hash_table_lookup, h, h2, ih]

theorem insert_of_lookup_none (t : GHashTable) (k : Int) (v : tun_rec)
    (h : g_hash_table_lookup t k = none) :
    g_hash_table_insert t k v = t ++ [(k, v)] := by
  induction t with
  | nil => rfl
  | cons kv rest ih =>
    obtain ⟨k0, v0⟩ := kv
    by_cases hk : k0 = k
    · simp [g_hash_table_lookup, hk] at h
    · simp only [g_hash_table_lookup, hk, if_false] at h
      simp [g_hash_table_insert, hk, ih h]

theorem lookup_append_of_some (t u : GHashTable) (k : Int) (r : tun_rec)
    (h : g_hash_table_lookup t k = some r) :
    g_hash_table_lookup (t ++ u) k = some r := by
  induction t with
  | nil => simp [g_hash_table_lookup] at h
  | cons kv rest ih =>
    obtain ⟨k0, v0⟩ := kv
    by_cases hk : k0 = k
    · simpa [g_hash_table_lookup, hk] using h
    · simp only [g_hash_table_lookup, hk, if_false] at h
      simpa [g_hash_table_lookup, hk] using ih h

theorem lookup_append_of_none (t u : GHashTable) (k : Int)
    (h : g_hash_table_lookup t k = none) :
    g_hash_table_lookup (t ++ u) k = g_hash_table_lookup u k := by
  induction t with
  | nil => rfl
  | cons kv rest ih =>
    obtain ⟨k0, v0⟩ := kv
    by_cases hk : k0 = k
    · simp [g_hash_table_lookup, hk] at h
    · simp only [g_hash_table_lookup, hk, if_false] at h
      simpa [g_hash_table_lookup, hk] using ih h

/-! One step of each handler. -/

theorem tun_serv_in_state (s : tun_state) (recvd : Int) (buf : List Nat) :
    (tun_serv_in s recvd buf).state = s := by
  unfold tun_serv_in
  dsimp only
  split_ifs
  · rfl
  · split <;> rfl
  · rfl

/-- The table after `tun_serv_out` is the table before, or the table before
with one pair added at a key whose lookup missed. -/
theorem tun_serv_out_state (s : tun_state) (recvd : Int) (buf : List Nat)
    (sa : sockaddr_in) (slen : Nat) :
    (tun_serv_out s recvd buf sa slen).state = s ∨
    (g_hash_table_lookup s.serv (sender_sport sa) = none ∧
     (tun_serv_out s recvd buf sa slen).state =
       { s with serv := s.serv ++
          [(sender_sport sa,
            { sa := sa, slen := slen, sport := (sender_sport sa) })] }) := by
  unfold tun_serv_out
  by_cases hr : recvd > 32
  · cases hl : g_hash_table_lookup s.serv (sender_sport sa) with
    | some r => left; simp [hr, hl]
    | none =>
      by_cases hs : g_hash_table_size s.serv ≤ s.fd_lim
      · right
        simp [hr, hl, hs, init_tun_rec, insert_of_lookup_none _ _ _ hl]
      · left; simp [hr, hl, hs]
  · left; simp [hr]

/-! Sequences of steps. -/

theorem run_nil (s : tun_state) :
    run s [] = { state := s, trace := [], fatal := none } := rfl

theorem run_cons_fatal (s : tun_state) (e : Event) (rest : List Event) (err : Errno)
    (h : (handle s e).fatal = some err) :
    run s (e :: rest) =
      { state := (handle s e).state, trace := (handle s e).trace, fatal := some err } := by
  simp [run, h]

theorem run_cons_ok (s : tun_state) (e : Event) (rest : List Event)
    (h : (handle s e).fatal = none) :
    run s (e :: rest) =
      { state := (run (handle s e).state rest).state,
        trace := (handle s e).trace ++ (run (handle s e).state rest).trace,
        fatal := (run (handle s e).state rest).fatal } := by
  simp [run, h]

/-- The table after a step is the table before, or the table before with one
pair added under a key whose lookup missed, the record carrying that key. -/
theorem handle_serv (s : tun_state) (e : Event) :
    (handle s e).state.serv = s.serv ∨
    ∃ k r, g_hash_table_lookup s.serv k = none ∧ r.sport = k ∧
      (handle s e).state.serv = s.serv ++ [(k, r)] := by
  cases e with
  | tun recvd buf => left; simp [handle, tun_serv_in_state]
  | udp recvd buf sa slen =>
    rcases tun_serv_out_state s recvd buf sa slen with h | ⟨hl, h⟩
    · left; simp [handle, h]
    · right
      exact ⟨(sender_sport sa),
        { sa := sa, slen := slen, sport := (sender_sport sa) },
        hl, rfl, by simp [handle, h]⟩

theorem handle_wf (s : tun_state) (e : Event) (h : TableWF s.serv) :
    TableWF (handle s e).state.serv := by
  rcases handle_serv s e with h1 | ⟨k, r, hl, hr, h1⟩
  · rw [h1]; exact h
  · rw [h1]
    obtain ⟨hn, hk⟩ := h
    have hk0 : k ∉ s.serv.map Prod.fst := (lookup_eq_none_iff s.serv k).1 hl
    constructor
    · rw [List.map_append, List.nodup_append]
      refine ⟨hn, by simp, ?_⟩
      intro a ha hb
      simp only [List.map_cons, List.map_nil, List.mem_singleton] at hb
      exact hk0 (hb ▸ ha)
    · intro kv hkv
      rcases List.mem_append.1 hkv with h2 | h2
      · exact hk kv h2
      · simp only [List.mem_singleton] at h2
        subst h2
        exact hr

theorem run_wf (evs : List Event) (s : tun_state) (h : TableWF s.serv) :
    TableWF (run s evs).state.serv := by
  induction evs generalizing s with
  | nil => simpa [run_nil] using h
  | cons e rest ih =>
    cases hf : (handle s e).fatal with
    | some err =>
      rw [run_cons_fatal s e rest err hf]
      exact handle_wf s e h
    | none =>
      rw [run_cons_ok s e rest hf]
      exact ih _ (handle_wf s e h)

theorem handle_lookup_mono (s : tun_state) (e : Event) (p : Int) (r : tun_rec)
    (h : g_hash_table_lookup s.serv p = some r) :
    g_hash_table_lookup (handle s e).state.serv p = some r := by
  rcases handle_serv s e with h1 | ⟨k, v, _, _, h1⟩
  · rw [h1]; exact h
  · rw [h1]; exact lookup_append_of_some _ _ _ _ h

theorem handle_size_mono (s : tun_state) (e : Event) :
    g_hash_table_size s.serv ≤ g_hash_table_size (handle s e).state.serv := by
  rcases handle_serv s e with h1 | ⟨k, v, _, _, h1⟩
  · rw [h1]
  · rw [h1]; simp [g_hash_table_size]

theorem run_lookup_mono (evs : List Event) (s : tun_state) (p : Int) (r : tun_rec)
    (h : g_hash_table_lookup s.serv p = some r) :
    g_hash_table_lookup (run s evs).state.serv p = some r := by
  induction evs generalizing s with
  | nil => simpa [run_nil] using h
  | cons e rest ih =>
    cases hf : (handle s e).fatal with
    | some err =>
      rw [run_cons_fatal s e rest err hf]
      exact handle_lookup_mono s e p r h
    | none =>
      rw [run_cons_ok s e rest hf]
      exact ih _ (handle_lookup_mono s e p r h)

theorem run_size_mono (evs : List Event) (s : tun_state) :
    g_hash_table_size s.serv ≤ g_hash_table_size (run s evs).state.serv := by
  induction evs generalizing s with
  | nil => simp [run_nil]
  | cons e rest ih =>
    cases hf : (handle s e).fatal with
    | some err =>
      rw [run_cons_fatal s e rest err hf]
      exact handle_size_mono s e
    | none =>
      rw [run_cons_ok s e rest hf]
      exact le_trans (handle_size_mono s e) (ih _)

/-- A run that died is not continued by further events. -/
theorem run_append_fatal (evs1 evs2 : List Event) (s : tun_state) (err : Errno)
    (h : (run s evs1).fatal = some err) :
    run s (evs1 ++ evs2) = run s evs1 := by
  induction evs1 generalizing s with
  | nil => simp [run_nil] at h
  | cons e rest ih =>
    cases hf : (handle s e).fatal with
    | some err2 =>
      rw [List.cons_append, run_cons_fatal s e _ err2 hf, run_cons_fatal s e _ err2 hf]
    | none =>
      rw [run_cons_ok s e rest hf] at h
      rw [List.cons_append, run_cons_ok s e _ hf, run_cons_ok s e _ hf, ih _ h]

/-- A run that did not die continues from the state it reached. -/
theorem run_append_ok (evs1 evs2 : List Event) (s : tun_state)
    (h : (run s evs1).fatal = none) :
    (run s (evs1 ++ evs2)).state = (run (run s evs1).state evs2).state := by
  induction evs1 generalizing s with
  | nil => simp [run_nil]
  | cons e rest ih =>
    cases hf : (handle s e).fatal with
    | some err2 =>
      rw [run_cons_fatal s e rest err2 hf] at h
      simp at h
    | none =>
      rw [run_cons_ok s e rest hf] at h
      rw [List.cons_append, run_cons_ok s e _ hf, run_cons_ok s e _ hf]
      exact ih _ h

/-! The claims of the specification. -/

/-- C1: in the state whose table holds exactly `fd_lim = 2` records (ports 5001
and 5002), `tun_serv_out` on a 40-byte datagram from the unseen port 5003 does
not die with EUSERS: it writes the datagram to the tunnel, inserts a record for
5003, and the table then holds 3 records. -/
theorem tun_serv_out_third_port_admitted :
    (tun_serv_out
        { serv := [(5001, { sa := mk_sockaddr 5001 1, slen := 16, sport := 5001 }),
                   (5002, { sa := mk_sockaddr 5002 2, slen := 16, sport := 5002 })],
          tcp_port := 80, udp_port := 4000, fd_lim := 2, inactivity_timeout := 10 }
        40 (List.replicate 40 0) (mk_sockaddr 5003 3) 16)
      = { state :=
            { serv := [(5001, { sa := mk_sockaddr 5001 1, slen := 16, sport := 5001 }),
                       (5002, { sa := mk_sockaddr 5002 2, slen := 16, sport := 5002 }),
                       (5003, { sa := mk_sockaddr 5003 3, slen := 16, sport := 5003 })],
              tcp_port := 80, udp_port := 4000, fd_lim := 2, inactivity_timeout := 10 },
          trace := [Call.xwrite (List.replicate 40 0)],
          fatal := none } := by
  decide

/-- C2: from the empty table with `fd_lim = 2`, the three 40-byte datagrams
from ports 5001, 5002 and 5003 are all admitted without a fatal error, and the
table ends with 3 records, one more than `fd_lim`. -/
theorem run_three_ports_exceeds_fd_lim :
    (run (init_tun_state 80 4000 2 10)
        [datagram40 5001 1, datagram40 5002 2, datagram40 5003 3]).fatal = none ∧
    g_hash_table_size (run (init_tun_state 80 4000 2 10)
        [datagram40 5001 1, datagram40 5002 2, datagram40 5003 3]).state.serv = 3 ∧
    (init_tun_state 80 4000 2 10).fd_lim = 2 := by
  decide

/-- C3: starting from the empty table, after every finite sequence of handler
steps (in particular of `tun_serv_out` deliveries) no two records of the table
have the same `sport`; and in the state reached, `tun_serv_out` changes the
table only when the lookup of the sender port has missed. -/
theorem session_uniqueness (tcp udp : Int) (lim : Nat) (tmo : Int) (evs : List Event) :
    ((run (init_tun_state tcp udp lim tmo) evs).state.serv.map
        (fun kv => kv.2.sport)).Nodup ∧
    ∀ (recvd : Int) (buf : List Nat) (sa : sockaddr_in) (slen : Nat),
      (tun_serv_out (run (init_tun_state tcp udp lim tmo) evs).state
          recvd buf sa slen).state.serv
        ≠ (run (init_tun_state tcp udp lim tmo) evs).state.serv →
      g_hash_table_lookup (run (init_tun_state tcp udp lim tmo) evs).state.serv
        (sender_sport sa) = none := by
  constructor
  · have hwf : TableWF (run (init_tun_state tcp udp lim tmo) evs).state.serv :=
      run_wf evs _ ⟨by simp [init_tun_state], by simp [init_tun_state]⟩
    have hmap : (run (init_tun_state tcp udp lim tmo) evs).state.serv.map
        (fun kv => kv.2.sport)
        = (run (init_tun_state tcp udp lim tmo) evs).state.serv.map Prod.fst :=
      List.map_congr_left hwf.2
    rw [hmap]
    exact hwf.1
  · intro recvd buf sa slen hne
    rcases tun_serv_out_state (run (init_tun_state tcp udp lim tmo) evs).state
        recvd buf sa slen with h | ⟨hl, _⟩
    · exact absurd (by rw [h]) hne
    · exact hl

/-- C4 (the claim as stated fails): three frames whose transport source port
5001 has an admitted session and that are not sent to that session. The first,
a 40-byte IPv4/UDP packet from port 5001 to port 6000, is sent to the address
recorded for port 6000; the second, from 5001 to 5001 with `tcp_port = 5001`, is
not sent at all; the third, 32 bytes long, is not sent at all. -/
theorem routability_fails_for_source_port :
    (ipv4_header_len (mk_ipv4 40 17 5001 6000) = 20 ∧
     transport_source_port (mk_ipv4 40 17 5001 6000) = 5001 ∧
     g_hash_table_lookup
         (run (init_tun_state 80 4000 2 10)
           [datagram40 5001 7, datagram40 6000 9]).state.serv 5001
       = some { sa := mk_sockaddr 5001 7, slen := 16, sport := 5001 } ∧
     (tun_serv_in
         (run (init_tun_state 80 4000 2 10) [datagram40 5001 7, datagram40 6000 9]).state
         40 (mk_ipv4 40 17 5001 6000)).trace
       = [Call.xsendto (mk_sockaddr 6000 9) (mk_ipv4 40 17 5001 6000)]) ∧
    (ipv4_header_len (mk_ipv4 40 17 5001 5001) = 20 ∧
     transport_source_port (mk_ipv4 40 17 5001 5001) = 5001 ∧
     g_hash_table_lookup
         (run (init_tun_state 5001 4000 2 10) [datagram40 5001 7]).state.serv 5001
       = some { sa := mk_sockaddr 5001 7, slen := 16, sport := 5001 } ∧
     (tun_serv_in (run (init_tun_state 5001 4000 2 10) [datagram40 5001 7]).state
         40 (mk_ipv4 40 17 5001 5001)).trace = []) ∧
    (ipv4_header_len (mk_ipv4 32 17 5001 5001) = 20 ∧
     transport_source_port (mk_ipv4 32 17 5001 5001) = 5001 ∧
     g_hash_table_lookup
         (run (init_tun_state 80 4000 2 10) [datagram40 5001 7]).state.serv 5001
       = some { sa := mk_sockaddr 5001 7, slen := 16, sport := 5001 } ∧
     (tun_serv_in (run (init_tun_state 80 4000 2 10) [datagram40 5001 7]).state
         32 (mk_ipv4 32 17 5001 5001)).trace = []) := by
  decide

/-- C4 (amended): for every state and every tunnel frame with `recvd > 32` whose
extracted key (frame bytes 22 and 23 read big-endian) differs from `tcp_port`
and has a record in the table, `tun_serv_in` issues exactly one `xsendto`, to
the `sa` of that record, of the first `recvd` bytes of the buffer, changes
nothing and does not die; when the buffer holds at least `recvd` bytes, the
bytes sent are `recvd` many; and when the frame is a raw IPv4 packet with a
20-byte header, the extracted key is its transport destination port. -/
theorem tun_serv_in_routes (s : tun_state) (recvd : Int) (buf : List Nat) (rec : tun_rec)
    (hr : recvd > 32)
    (hp : frame_sport buf ≠ s.tcp_port)
    (hl : g_hash_table_lookup s.serv (frame_sport buf) = some rec) :
    tun_serv_in s recvd buf =
      { state := s, trace := [Call.xsendto rec.sa (buf.take recvd.toNat)], fatal := none } ∧
    (recvd.toNat ≤ buf.length → ((buf.take recvd.toNat).length : Int) = recvd) ∧
    (ipv4_header_len buf = 20 → frame_sport buf = transport_dest_port buf) := by
  refine ⟨?_, ?_, ?_⟩
  · simp [tun_serv_in, hr, hp, hl, payload]
  · intro hlen
    rw [List.length_take, Nat.min_eq_left hlen]
    exact Int.toNat_of_nonneg (by omega)
  · intro h
    simp only [frame_sport, transport_dest_port, h]

theorem tun_serv_in_routes_witness :
    tun_serv_in
        (run (init_tun_state 80 4000 2 10) [datagram40 5001 7, datagram40 6000 9]).state
        40 (mk_ipv4 40 17 6000 5001) =
      { state :=
          (run (init_tun_state 80 4000 2 10) [datagram40 5001 7, datagram40 6000 9]).state,
        trace := [Call.xsendto (mk_sockaddr 5001 7)
          ((mk_ipv4 40 17 6000 5001).take (40 : Int).toNat)],
        fatal := none } ∧
    frame_sport (mk_ipv4 40 17 6000 5001) = transport_dest_port (mk_ipv4 40 17 6000 5001) :=
  ⟨(tun_serv_in_routes
      (run (init_tun_state 80 4000 2 10) [datagram40 5001 7, datagram40 6000 9]).state
      40 (mk_ipv4 40 17 6000 5001) { sa := mk_sockaddr 5001 7, slen := 16, sport := 5001 }
      (by decide) (by decide) (by decide)).1,
   (tun_serv_in_routes
      (run (init_tun_state 80 4000 2 10) [datagram40 5001 7, datagram40 6000 9]).state
      40 (mk_ipv4 40 17 6000 5001) { sa := mk_sockaddr 5001 7, slen := 16, sport := 5001 }
      (by decide) (by decide) (by decide)).2.2 (by decide)⟩

/-- C5 (the claim as stated fails): after the 40-byte datagram from port 5001 is
admitted into the empty table, tunnel frames whose transport source port is
5001 are not forwarded to the sender address. The 40-byte IPv4/UDP packet from
port 5001 to port 6000 makes `tun_serv_in` die on the lookup; with
`tcp_port = 5001`, the packet from 5001 to 5001 is dropped without a send. -/
theorem admitted_source_port_not_forwarded :
    (g_hash_table_size (init_tun_state 80 4000 2 10).serv
       < (init_tun_state 80 4000 2 10).fd_lim ∧
     g_hash_table_lookup (init_tun_state 80 4000 2 10).serv 5001 = none ∧
     g_hash_table_lookup
         (tun_serv_out (init_tun_state 80 4000 2 10) 40 (List.replicate 40 0)
           (mk_sockaddr 5001 7) 16).state.serv 5001
       = some { sa := mk_sockaddr 5001 7, slen := 16, sport := 5001 } ∧
     ipv4_header_len (mk_ipv4 40 17 5001 6000) = 20 ∧
     transport_source_port (mk_ipv4 40 17 5001 6000) = 5001 ∧
     tun_serv_in
         (tun_serv_out (init_tun_state 80 4000 2 10) 40 (List.replicate 40 0)
           (mk_sockaddr 5001 7) 16).state
         40 (mk_ipv4 40 17 5001 6000)
       = { state := (tun_serv_out (init_tun_state 80 4000 2 10) 40 (List.replicate 40 0)
             (mk_sockaddr 5001 7) 16).state,
           trace := [], fatal := some Errno.EFAULT }) ∧
    (g_hash_table_lookup
         (tun_serv_out (init_tun_state 5001 4000 2 10) 40 (List.replicate 40 0)
           (mk_sockaddr 5001 7) 16).state.serv 5001
       = some { sa := mk_sockaddr 5001 7, slen := 16, sport := 5001 } ∧
     transport_source_port (mk_ipv4 40 17 5001 5001) = 5001 ∧
     tun_serv_in
         (tun_serv_out (init_tun_state 5001 4000 2 10) 40 (List.replicate 40 0)
           (mk_sockaddr 5001 7) 16).state
         40 (mk_ipv4 40 17 5001 5001)
       = { state := (tun_serv_out (init_tun_state 5001 4000 2 10) 40 (List.replicate 40 0)
             (mk_sockaddr 5001 7) 16).state,
           trace := [], fatal := none }) := by
  decide

/-- C5 (amended): for every state with table size below `fd_lim` and every
datagram with `recvd > 32` whose sender port has no record, `tun_serv_out`
writes the first `recvd` bytes of the buffer to the tunnel, does not die, and
leaves a table in which the sender port looks up a record holding the sender
address; a tunnel frame with `recvd > 32` whose extracted key (frame bytes 22
and 23, the transport destination port of a raw IPv4 packet with a 20-byte
header) is that port and differs from `tcp_port`, handled next by
`tun_serv_in`, is sent by one `xsendto` to that address. -/
theorem admission_makes_routable (s : tun_state) (recvd : Int) (buf : List Nat)
    (sa : sockaddr_in) (slen : Nat)
    (hr : recvd > 32)
    (hmiss : g_hash_table_lookup s.serv (sender_sport sa) = none)
    (hroom : g_hash_table_size s.serv < s.fd_lim) :
    (tun_serv_out s recvd buf sa slen).trace = [Call.xwrite (buf.take recvd.toNat)] ∧
    (tun_serv_out s recvd buf sa slen).fatal = none ∧
    g_hash_table_lookup (tun_serv_out s recvd buf sa slen).state.serv (sender_sport sa)
      = some { sa := sa, slen := slen, sport := sender_sport sa } ∧
    (∀ (recvd2 : Int) (buf2 : List Nat),
      recvd2 > 32 → frame_sport buf2 = sender_sport sa → sender_sport sa ≠ s.tcp_port →
      tun_serv_in (tun_serv_out s recvd buf sa slen).state recvd2 buf2 =
        { state := (tun_serv_out s recvd buf sa slen).state,
          trace := [Call.xsendto sa (buf2.take recvd2.toNat)],
          fatal := none }) ∧
    (∀ (recvd2 : Int) (buf2 : List Nat),
      recvd2 > 32 → ipv4_header_len buf2 = 20 →
      transport_dest_port buf2 = sender_sport sa → sender_sport sa ≠ s.tcp_port →
      tun_serv_in (tun_serv_out s recvd buf sa slen).state recvd2 buf2 =
        { state := (tun_serv_out s recvd buf sa slen).state,
          trace := [Call.xsendto sa (buf2.take recvd2.toNat)],
          fatal := none }) := by
  have hle : g_hash_table_size s.serv ≤ s.fd_lim := Nat.le_of_lt hroom
  have hout : tun_serv_out s recvd buf sa slen =
      { state := { s with serv := s.serv ++
          [(sender_sport sa, { sa := sa, slen := slen, sport := sender_sport sa })] },
        trace := [Call.xwrite (buf.take recvd.toNat)],
        fatal := none } := by
    simp [tun_serv_out, hr, hmiss, hle, init_tun_rec, payload,
      insert_of_lookup_none _ _ _ hmiss]
  have hlk : g_hash_table_lookup
      (s.serv ++ [(sender_sport sa, { sa := sa, slen := slen, sport := sender_sport sa })])
      (sender_sport sa) = some { sa := sa, slen := slen, sport := sender_sport sa } := by
    rw [lookup_append_of_none _ _ _ hmiss]
    simp [g_hash_table_lookup]
  rw [hout]
  have hkey : ∀ (recvd2 : Int) (buf2 : List Nat),
      recvd2 > 32 → frame_sport buf2 = sender_sport sa → sender_sport sa ≠ s.tcp_port →
      tun_serv_in
          { s with serv := s.serv ++
            [(sender_sport sa, { sa := sa, slen := slen, sport := sender_sport sa })] }
          recvd2 buf2 =
        { state := { s with serv := s.serv ++
            [(sender_sport sa, { sa := sa, slen := slen, sport := sender_sport sa })] },
          trace := [Call.xsendto sa (buf2.take recvd2.toNat)],
          fatal := none } := by
    intro recvd2 buf2 hr2 hp hne
    have hne2 : frame_sport buf2 ≠ s.tcp_port := by rw [hp]; exact hne
    simp only [tun_serv_in, hr2, if_true, hne2, if_false]
    rw [hp, hlk]
    rfl
  refine ⟨rfl, rfl, hlk, hkey, ?_⟩
  intro recvd2 buf2 hr2 hip hp hne
  have hfs : frame_sport buf2 = transport_dest_port buf2 := by
    simp only [frame_sport, transport_dest_port, hip]
  exact hkey recvd2 buf2 hr2 (hfs.trans hp) hne

theorem admission_makes_routable_witness :
    (tun_serv_out (init_tun_state 80 4000 2 10) 40 (List.replicate 40 0)
        (mk_sockaddr 5001 7) 16).trace
      = [Call.xwrite ((List.replicate 40 0).take (40 : Int).toNat)] ∧
    tun_serv_in
        (tun_serv_out (init_tun_state 80 4000 2 10) 40 (List.replicate 40 0)
          (mk_sockaddr 5001 7) 16).state
        40 (mk_ipv4 40 17 6000 5001)
      = { state := (tun_serv_out (init_tun_state 80 4000 2 10) 40 (List.replicate 40 0)
            (mk_sockaddr 5001 7) 16).state,
          trace := [Call.xsendto (mk_sockaddr 5001 7)
            ((mk_ipv4 40 17 6000 5001).take (40 : Int).toNat)],
          fatal := none } :=
  ⟨(admission_makes_routable (init_tun_state 80 4000 2 10) 40 (List.replicate 40 0)
      (mk_sockaddr 5001 7) 16 (by decide) (by decide) (by decide)).1,
   (admission_makes_routable (init_tun_state 80 4000 2 10) 40 (List.replicate 40 0)
      (mk_sockaddr 5001 7) 16 (by decide) (by decide) (by decide)).2.2.2.2
      40 (mk_ipv4 40 17 6000 5001) (by decide) (by decide) (by decide) (by decide)⟩

/-- Once the read has returned at most 32, both handlers return the state
unchanged, issue no call and do not die. -/
theorem handlers_silent_of_le (s : tun_state) (recvd : Int) (buf : List Nat)
    (sa : sockaddr_in) (slen : Nat) (h : recvd ≤ 32) :
    tun_serv_in s recvd buf = { state := s, trace := [], fatal := none } ∧
    tun_serv_out s recvd buf sa slen = { state := s, trace := [], fatal := none } := by
  have hn : ¬ recvd > 32 := by omega
  constructor
  · simp [tun_serv_in, hn]
  · simp [tun_serv_out, hn]

/-- Above 32, `tun_serv_in` is not silent on every input: on the empty table
with `tcp_port = 0` and a frame whose key is 1 it dies on the lookup. -/
theorem tun_serv_in_acts_above_32 (recvd : Int) (hr : recvd > 32) :
    tun_serv_in (init_tun_state 0 0 0 0) recvd (mk_frame 40 1) =
      { state := init_tun_state 0 0 0 0, trace := [], fatal := some Errno.EFAULT } := by
  have hk : frame_sport (mk_frame 40 1) = 1 := by decide
  simp [tun_serv_in, hr, hk, init_tun_state, g_hash_table_lookup]

/-- Above 32, `tun_serv_out` is silent on no input: it writes to the tunnel or
dies. -/
theorem tun_serv_out_acts_above_32 (s : tun_state) (recvd : Int) (buf : List Nat)
    (sa : sockaddr_in) (slen : Nat) (hr : recvd > 32) :
    (tun_serv_out s recvd buf sa slen).trace ≠ [] ∨
    (tun_serv_out s recvd buf sa slen).fatal ≠ none := by
  unfold tun_serv_out
  cases hl : g_hash_table_lookup s.serv (sender_sport sa) with
  | some r => left; simp [hr, hl]
  | none =>
    by_cases hs : g_hash_table_size s.serv ≤ s.fd_lim
    · left; simp [hr, hl, hs]
    · right; simp [hr, hl, hs]

/-- C6 (the claim as stated fails): a failed read is fatal. When the read or
the receive system call returns -1, the wrapper ends the process, in
`tun_serv_in` and in `tun_serv_out`. -/
theorem failed_read_is_fatal :
    tun_serv_in_call (init_tun_state 80 4000 2 10) (-1) (List.replicate 40 0) = none ∧
    tun_serv_out_call (init_tun_state 80 4000 2 10) (-1) (List.replicate 40 0)
      (mk_sockaddr 5001 7) 16 = none := by
  decide

/-- C6 (amended): a received length `recvd` lies between 0 and 32 (an empty read
included) exactly when `tun_serv_in`, on every state and buffer, returns with
the state unchanged, no `xsendto`, no `xwrite` and no fatal error; and exactly
when `tun_serv_out` does so on every state, buffer and sender address. So 32 is
the threshold in both directions: above it each handler acts on some input, and
below 0 the read has failed and the wrapper ends the process. -/
theorem noise_rejection (recvd : Int) :
    ((0 ≤ recvd ∧ recvd ≤ 32) ↔
      ∀ (s : tun_state) (buf : List Nat),
        tun_serv_in_call s recvd buf = some { state := s, trace := [], fatal := none }) ∧
    ((0 ≤ recvd ∧ recvd ≤ 32) ↔
      ∀ (s : tun_state) (buf : List Nat) (sa : sockaddr_in) (slen : Nat),
        tun_serv_out_call s recvd buf sa slen
          = some { state := s, trace := [], fatal := none }) := by
  constructor
  · constructor
    · rintro ⟨h0, h32⟩ s buf
      have hn : ¬ recvd < 0 := by omega
      simp [tun_serv_in_call, xread, hn,
        (handlers_silent_of_le s recvd buf (mk_sockaddr 0 0) 0 h32).1]
    · intro h
      by_cases h0 : recvd < 0
      · have h1 := h (init_tun_state 0 0 0 0) (mk_frame 40 1)
        simp [tun_serv_in_call, xread, h0] at h1
      · by_cases h32 : recvd > 32
        · have h1 := h (init_tun_state 0 0 0 0) (mk_frame 40 1)
          simp [tun_serv_in_call, xread, h0, tun_serv_in_acts_above_32 recvd h32] at h1
        · omega
  · constructor
    · rintro ⟨h0, h32⟩ s buf sa slen
      have hn : ¬ recvd < 0 := by omega
      simp [tun_serv_out_call, xrecvfrom, hn,
        (handlers_silent_of_le s recvd buf sa slen h32).2]
    · intro h
      by_cases h0 : recvd < 0
      · have h1 := h (init_tun_state 0 0 0 0) [] (mk_sockaddr 0 0) 0
        simp [tun_serv_out_call, xrecvfrom, h0] at h1
      · by_cases h32 : recvd > 32
        · have h1 := h (init_tun_state 0 0 0 0) [] (mk_sockaddr 0 0) 0
          simp only [tun_serv_out_call, xrecvfrom, h0, if_false, Option.some.injEq] at h1
          rcases tun_serv_out_acts_above_32 (init_tun_state 0 0 0 0) recvd []
            (mk_sockaddr 0 0) 0 h32 with h2 | h2
          · rw [h1] at h2; exact absurd rfl h2
          · rw [h1] at h2; exact absurd rfl h2
        · omega

theorem noise_rejection_witness :
    tun_serv_in_call (run (init_tun_state 80 4000 2 10) [datagram40 5001 7]).state
        32 (mk_ipv4 32 17 6000 5001)
      = some { state := (run (init_tun_state 80 4000 2 10) [datagram40 5001 7]).state,
               trace := [], fatal := none } ∧
    tun_serv_out_call (run (init_tun_state 80 4000 2 10) [datagram40 5001 7]).state
        32 (List.replicate 32 0) (mk_sockaddr 5002 8) 16
      = some { state := (run (init_tun_state 80 4000 2 10) [datagram40 5001 7]).state,
               trace := [], fatal := none } :=
  ⟨(noise_rejection 32).1.1 ⟨by decide, by decide⟩ _ _,
   (noise_rejection 32).2.1 ⟨by decide, by decide⟩ _ _ _ _⟩

/-- C7: for every state in which the sender port of a datagram has a record,
`tun_serv_out` on that datagram with `recvd > 32` writes the first `recvd`
bytes of the buffer to the tunnel, does not die and returns the state exactly as
it was; nothing is assumed about the sender IP address or the table size. -/
theorem admission_monotonicity (s : tun_state) (recvd : Int) (buf : List Nat)
    (sa : sockaddr_in) (slen : Nat) (rec : tun_rec)
    (hr : recvd > 32)
    (hl : g_hash_table_lookup s.serv (sender_sport sa) = some rec) :
    tun_serv_out s recvd buf sa slen =
      { state := s, trace := [Call.xwrite (buf.take recvd.toNat)], fatal := none } := by
  simp [tun_serv_out, hr, hl, payload]

theorem admission_monotonicity_witness :
    tun_serv_out
        { serv := [(5001, { sa := mk_sockaddr 5001 7, slen := 16, sport := 5001 })],
          tcp_port := 80, udp_port := 4000, fd_lim := 0, inactivity_timeout := 10 }
        40 (List.replicate 40 1) (mk_sockaddr 5001 9) 16 =
      { state :=
          { serv := [(5001, { sa := mk_sockaddr 5001 7, slen := 16, sport := 5001 })],
            tcp_port := 80, udp_port := 4000, fd_lim := 0, inactivity_timeout := 10 },
        trace := [Call.xwrite ((List.replicate 40 1).take (40 : Int).toNat)],
        fatal := none } :=
  admission_monotonicity
    { serv := [(5001, { sa := mk_sockaddr 5001 7, slen := 16, sport := 5001 })],
      tcp_port := 80, udp_port := 4000, fd_lim := 0, inactivity_timeout := 10 }
    40 (List.replicate 40 1) (mk_sockaddr 5001 9) 16
    { sa := mk_sockaddr 5001 7, slen := 16, sport := 5001 } (by decide) (by decide)

/-- C8: `tun_serv_in` dies with EFAULT exactly when `recvd > 32`, the embedded
source port differs from `tcp_port` and has no record in the table; it dies in
no other way, and when it dies it has sent nothing and the state is unchanged. -/
theorem tun_serv_in_fatal_iff (s : tun_state) (recvd : Int) (buf : List Nat) :
    ((tun_serv_in s recvd buf).fatal = some Errno.EFAULT ↔
      (recvd > 32 ∧ frame_sport buf ≠ s.tcp_port ∧
        g_hash_table_lookup s.serv (frame_sport buf) = none)) ∧
    ((tun_serv_in s recvd buf).fatal ≠ none →
      (tun_serv_in s recvd buf).fatal = some Errno.EFAULT ∧
      (tun_serv_in s recvd buf).trace = [] ∧
      (tun_serv_in s recvd buf).state = s) := by
  by_cases hr : recvd > 32
  · by_cases hp : frame_sport buf = s.tcp_port
    · simp [tun_serv_in, hr, hp]
    · cases hl : g_hash_table_lookup s.serv (frame_sport buf) with
      | some rec => simp [tun_serv_in, hr, hp, hl]
      | none => simp [tun_serv_in, hr, hp, hl]
  · simp [tun_serv_in, hr]

theorem tun_serv_in_fatal_iff_witness :
    (tun_serv_in (init_tun_state 80 4000 2 10) 40 (mk_frame 40 5001)).fatal
      = some Errno.EFAULT ∧
    (tun_serv_in (init_tun_state 80 4000 2 10) 40 (mk_frame 40 5001)).trace = [] ∧
    (tun_serv_in (init_tun_state 80 4000 2 10) 40 (mk_frame 40 5001)).state
      = init_tun_state 80 4000 2 10 :=
  (tun_serv_in_fatal_iff (init_tun_state 80 4000 2 10) 40 (mk_frame 40 5001)).2 (by decide)

/-- C9: along every sequence of handler steps, from any state: a port that
looks up a record after the first part of the sequence looks up the same record
(so the same address) after any continuation, the table size after the
continuation is at least the size before it, and `tun_serv_in` returns the
state it was given. -/
theorem sessions_permanent (s : tun_state) (evs1 evs2 : List Event) :
    (∀ (p : Int) (r : tun_rec),
      g_hash_table_lookup (run s evs1).state.serv p = some r →
      g_hash_table_lookup (run s (evs1 ++ evs2)).state.serv p = some r) ∧
    g_hash_table_size (run s evs1).state.serv
      ≤ g_hash_table_size (run s (evs1 ++ evs2)).state.serv ∧
    ∀ (recvd : Int) (buf : List Nat), (tun_serv_in s recvd buf).state = s := by
  refine ⟨?_, ?_, tun_serv_in_state s⟩
  · intro p r h
    cases hf : (run s evs1).fatal with
    | some err => rw [run_append_fatal evs1 evs2 s err hf]; exact h
    | none =>
      rw [run_append_ok evs1 evs2 s hf]
      exact run_lookup_mono evs2 _ p r h
  · cases hf : (run s evs1).fatal with
    | some err => rw [run_append_fatal evs1 evs2 s err hf]
    | none =>
      rw [run_append_ok evs1 evs2 s hf]
      exact run_size_mono evs2 _

theorem sessions_permanent_witness :
    g_hash_table_lookup
        (run (init_tun_state 80 4000 2 10)
          ([datagram40 5001 7] ++
            [datagram40 5001 9, Event.tun 40 (mk_frame 40 5001), datagram40 5002 8])).state.serv
        5001
      = some { sa := mk_sockaddr 5001 7, slen := 16, sport := 5001 } :=
  (sessions_permanent (init_tun_state 80 4000 2 10) [datagram40 5001 7]
      [datagram40 5001 9, Event.tun 40 (mk_frame 40 5001), datagram40 5002 8]).1
    5001 { sa := mk_sockaddr 5001 7, slen := 16, sport := 5001 } (by decide)

/-- C10: when `xselect` returns 0 in an iteration of the loop of `tun_serv`, the
loop ends in that iteration with the state it had, no call to `tun_serv_out` or
`tun_serv_in`, no call on either descriptor and no fatal error, whatever the
later iterations would have been. The flag `loop` is read by the loop condition
only: when it is nonzero the loop ends by the timeout `break`, and when it is
zero the loop has ended already, before the wait. -/
theorem inactivity_shutdown (s : tun_state) (it : Iteration) (rest : List Iteration)
    (h : it.sel = 0) :
    tun_serv_loop s (it :: rest) =
      { out := { state := s, trace := [], fatal := none },
        calls := [],
        exit := if it.loop = 0 then Exit.stopped else Exit.timeout } := by
  by_cases hl : it.loop = 0
  · simp [tun_serv_loop, hl]
  · simp [tun_serv_loop, hl, h]

theorem inactivity_shutdown_witness :
    tun_serv_loop
        { serv := [(5001, { sa := mk_sockaddr 5001 7, slen := 16, sport := 5001 })],
          tcp_port := 80, udp_port := 4000, fd_lim := 2, inactivity_timeout := 10 }
        ({ loop := 1, sel := 0, udp_ready := true, tun_ready := true,
           udp_recvd := 40, udp_buf := List.replicate 40 0, udp_sa := mk_sockaddr 5002 8,
           udp_slen := 16, tun_recvd := 40, tun_buf := mk_frame 40 6000 } :: []) =
      { out :=
          { state :=
              { serv := [(5001, { sa := mk_sockaddr 5001 7, slen := 16, sport := 5001 })],
                tcp_port := 80, udp_port := 4000, fd_lim := 2, inactivity_timeout := 10 },
            trace := [], fatal := none },
        calls := [],
        exit := Exit.timeout } :=
  inactivity_shutdown
    { serv := [(5001, { sa := mk_sockaddr 5001 7, slen := 16, sport := 5001 })],
      tcp_port := 80, udp_port := 4000, fd_lim := 2, inactivity_timeout := 10 }
    { loop := 1, sel := 0, udp_ready := true, tun_ready := true,
      udp_recvd := 40, udp_buf := List.replicate 40 0, udp_sa := mk_sockaddr 5002 8,
      udp_slen := 16, tun_recvd := 40, tun_buf := mk_frame 40 6000 } [] rfl

/-! Byte-level lemmas. -/

/-- On either host, `ntohs` of the loaded 16-bit object is the big-endian
reading of its two bytes in memory. -/
theorem ntohs_host_load (o : ByteOrder) (b0 b1 : Nat) :
    ntohs_host o (load_uint16 o b0 b1) = ntohs b0 b1 := by
  cases o
  · simp only [ntohs_host, load_uint16, ntohs]; omega
  · simp only [ntohs_host, load_uint16, ntohs]; omega

theorem ntohs_le (b0 b1 : Nat) : ntohs b0 b1 ≤ 65535 := by
  simp only [ntohs]; omega

theorem ntohs_of_bytes (b0 b1 : Nat) (h0 : b0 < 256) (h1 : b1 < 256) :
    ntohs b0 b1 = 256 * b0 + b1 := by
  simp only [ntohs]; omega

theorem sender_sport_mk_sockaddr (p a : Nat) (h : p ≤ 65535) :
    sender_sport (mk_sockaddr p a) = (p : Int) := by
  have : ntohs (p / 256) (p % 256) = p := by simp only [ntohs]; omega
  simp [sender_sport, mk_sockaddr, this]

/-- C11 (the claim as stated fails): the 40-byte raw IPv4 packet with a 20-byte
header carrying UDP from source port 5001 to destination port 6000 yields the
key 6000, not its source port 5001; with a session admitted for 5001 only,
`tun_serv_in` dies on the lookup and sends nothing. -/
theorem frame_sport_is_not_source_port :
    (mk_ipv4 40 17 5001 6000).length = 40 ∧
    ipv4_header_len (mk_ipv4 40 17 5001 6000) = 20 ∧
    transport_source_port (mk_ipv4 40 17 5001 6000) = 5001 ∧
    frame_sport (mk_ipv4 40 17 5001 6000) = 6000 ∧
    tun_serv_in
        { serv := [(5001, { sa := mk_sockaddr 5001 7, slen := 16, sport := 5001 })],
          tcp_port := 80, udp_port := 4000, fd_lim := 2, inactivity_timeout := 10 }
        40 (mk_ipv4 40 17 5001 6000) =
      { state :=
          { serv := [(5001, { sa := mk_sockaddr 5001 7, slen := 16, sport := 5001 })],
            tcp_port := 80, udp_port := 4000, fd_lim := 2, inactivity_timeout := 10 },
        trace := [], fatal := some Errno.EFAULT } := by
  decide

/-- C11 (amended): for every tunnel frame that is a raw IPv4 packet with a
20-byte IP header, the key `tun_serv_in` extracts is the transport-layer
destination port of the encapsulated packet (the 16-bit big-endian field after
the source port, frame bytes 22 and 23); and a frame with `recvd > 32` whose
destination port differs from `tcp_port` and has a record is sent to the address
of that record. -/
theorem frame_sport_eq_dest_port (buf : List Nat) (h : ipv4_header_len buf = 20) :
    frame_sport buf = transport_dest_port buf ∧
    ∀ (s : tun_state) (recvd : Int) (rec : tun_rec),
      recvd > 32 → transport_dest_port buf ≠ s.tcp_port →
      g_hash_table_lookup s.serv (transport_dest_port buf) = some rec →
      tun_serv_in s recvd buf =
        { state := s, trace := [Call.xsendto rec.sa (buf.take recvd.toNat)], fatal := none } := by
  have hk : frame_sport buf = transport_dest_port buf := by
    simp only [frame_sport, transport_dest_port, h]
  refine ⟨hk, ?_⟩
  intro s recvd rec hr hp hl
  rw [← hk] at hp hl
  simp [tun_serv_in, hr, hp, hl, payload]

theorem frame_sport_eq_dest_port_witness :
    frame_sport (mk_ipv4 40 6 5001 6000) = transport_dest_port (mk_ipv4 40 6 5001 6000) :=
  (frame_sport_eq_dest_port (mk_ipv4 40 6 5001 6000) (by decide)).1

/-- The key depends only on the bytes received: with more than 23 of them, the
key of the buffer is the key of its first `recvd` bytes. -/
theorem frame_sport_payload (recvd : Int) (buf : List Nat) (hr : recvd > 32) :
    frame_sport (payload buf recvd) = frame_sport buf := by
  have hn22 : 22 < recvd.toNat := by omega
  have hn23 : 23 < recvd.toNat := by omega
  simp [frame_sport, payload, List.getD_eq_getElem?_getD, List.getElem?_take, hn22, hn23]

theorem payload_payload (recvd : Int) (buf : List Nat) :
    payload (payload buf recvd) recvd = payload buf recvd := by
  simp [payload, List.take_take]

/-- C12: for every state and every tunnel read into a buffer of bytes that holds
at least `recvd` bytes: when `recvd ≤ 32`, `tun_serv_in` extracts no key and
does nothing; its outcome is always the one it has on the first `recvd` bytes
alone, so it reads nothing beyond the bytes received; and when `recvd > 32`,
the bytes at indices 22 and 23 are among the `recvd` bytes received, the key is
256 times the first plus the second, the C computation (a 16-bit load followed
by `ntohs`) gives that value on a little-endian and on a big-endian host, the
key lies between 0 and 65535, and `tun_serv_in` branches on exactly that key:
nothing when it equals `tcp_port`, else one `xsendto` to the record it looks
up, else the fatal lookup error. -/
theorem frame_sport_big_endian (o : ByteOrder) (s : tun_state) (recvd : Int)
    (buf : List Nat)
    (hlen : recvd.toNat ≤ buf.length) (hb : ∀ x ∈ buf, x < 256) :
    (recvd ≤ 32 → tun_serv_in s recvd buf = { state := s, trace := [], fatal := none }) ∧
    tun_serv_in s recvd buf = tun_serv_in s recvd (payload buf recvd) ∧
    (recvd > 32 →
      ∃ b22 b23 : Nat,
        (payload buf recvd)[22]? = some b22 ∧
        (payload buf recvd)[23]? = some b23 ∧
        frame_sport buf = 256 * (b22 : Int) + (b23 : Int) ∧
        ((ntohs_host o (load_uint16 o b22 b23) : Nat) : Int)
          = 256 * (b22 : Int) + (b23 : Int) ∧
        0 ≤ 256 * (b22 : Int) + (b23 : Int) ∧
        256 * (b22 : Int) + (b23 : Int) ≤ 65535 ∧
        tun_serv_in s recvd buf =
          (if 256 * (b22 : Int) + (b23 : Int) = s.tcp_port then
            { state := s, trace := [], fatal := none }
          else
            match g_hash_table_lookup s.serv (256 * (b22 : Int) + (b23 : Int)) with
            | some rec =>
              { state := s, trace := [Call.xsendto rec.sa (payload buf recvd)],
                fatal := none }
            | none => { state := s, trace := [], fatal := some Errno.EFAULT })) := by
  refine ⟨?_, ?_, ?_⟩
  · intro h
    have hn : ¬ recvd > 32 := by omega
    simp [tun_serv_in, hn]
  · by_cases hr : recvd > 32
    · simp only [tun_serv_in, hr, if_true, frame_sport_payload recvd buf hr,
        payload_payload]
    · simp [tun_serv_in, hr]
  · intro hr
    have h22 : 22 < buf.length := by omega
    have h23 : 23 < buf.length := by omega
    have hn22 : 22 < recvd.toNat := by omega
    have hn23 : 23 < recvd.toNat := by omega
    have hb22 : buf[22] < 256 := hb _ (List.getElem_mem h22)
    have hb23 : buf[23] < 256 := hb _ (List.getElem_mem h23)
    have hk : frame_sport buf = ((ntohs buf[22] buf[23] : Nat) : Int) := by
      simp only [frame_sport, List.getD_eq_getElem _ _ h22, List.getD_eq_getElem _ _ h23]
    have hle := ntohs_le buf[22] buf[23]
    have hv : ((ntohs buf[22] buf[23] : Nat) : Int)
        = (256 : Int) * ((buf[22] : Nat) : Int) + ((buf[23] : Nat) : Int) := by
      rw [ntohs_of_bytes _ _ hb22 hb23]; push_cast; ring
    have hkey : frame_sport buf
        = (256 : Int) * ((buf[22] : Nat) : Int) + ((buf[23] : Nat) : Int) :=
      hk.trans hv
    refine ⟨buf[22], buf[23], ?_, ?_, hkey, ?_, ?_, ?_, ?_⟩
    · simp [payload, List.getElem?_take, hn22, h22]
    · simp [payload, List.getElem?_take, hn23, h23]
    · rw [ntohs_host_load, hv]
    · rw [← hkey, hk]; exact Int.ofNat_nonneg _
    · rw [← hv]; exact_mod_cast hle
    · rw [← hkey]
      simp only [tun_serv_in, hr, if_true]

theorem frame_sport_big_endian_witness :
    ∃ b22 b23 : Nat,
      (payload (mk_frame 40 5001) 40)[22]? = some b22 ∧
      (payload (mk_frame 40 5001) 40)[23]? = some b23 ∧
      frame_sport (mk_frame 40 5001) = 256 * (b22 : Int) + (b23 : Int) ∧
      ((ntohs_host ByteOrder.little (load_uint16 ByteOrder.little b22 b23) : Nat) : Int)
        = 256 * (b22 : Int) + (b23 : Int) ∧
      0 ≤ 256 * (b22 : Int) + (b23 : Int) ∧
      256 * (b22 : Int) + (b23 : Int) ≤ 65535 ∧
      tun_serv_in (init_tun_state 80 4000 2 10) 40 (mk_frame 40 5001) =
        (if 256 * (b22 : Int) + (b23 : Int) = (init_tun_state 80 4000 2 10).tcp_port then
          { state := init_tun_state 80 4000 2 10, trace := [], fatal := none }
        else
          match g_hash_table_lookup (init_tun_state 80 4000 2 10).serv
              (256 * (b22 : Int) + (b23 : Int)) with
          | some rec =>
            { state := init_tun_state 80 4000 2 10,
              trace := [Call.xsendto rec.sa (payload (mk_frame 40 5001) 40)],
              fatal := none }
          | none =>
            { state := init_tun_state 80 4000 2 10, trace := [],
              fatal := some Errno.EFAULT }) :=
  (frame_sport_big_endian ByteOrder.little (init_tun_state 80 4000 2 10) 40
    (mk_frame 40 5001) (by decide) (by decide)).2.2 (by decide)

/-- C13: for every state and every tunnel frame with `recvd > 32` whose
extracted port equals `tcp_port`, `tun_serv_in` sends nothing, does not die and
returns the state unchanged, whatever the table holds; and `tun_serv_out` does
admit a datagram whose sender port is `tcp_port` when that port has no record
and the size test passes, after which the same frame is still not forwarded. -/
theorem control_port_stub (s : tun_state) (recvd : Int) (buf : List Nat)
    (hr : recvd > 32) (hp : frame_sport buf = s.tcp_port) :
    tun_serv_in s recvd buf = { state := s, trace := [], fatal := none } ∧
    ∀ (recvd2 : Int) (buf2 : List Nat) (sa : sockaddr_in) (slen : Nat),
      recvd2 > 32 → sender_sport sa = s.tcp_port →
      g_hash_table_lookup s.serv s.tcp_port = none →
      g_hash_table_size s.serv ≤ s.fd_lim →
      g_hash_table_lookup (tun_serv_out s recvd2 buf2 sa slen).state.serv s.tcp_port
        = some { sa := sa, slen := slen, sport := s.tcp_port } ∧
      tun_serv_in (tun_serv_out s recvd2 buf2 sa slen).state recvd buf =
        { state := (tun_serv_out s recvd2 buf2 sa slen).state, trace := [], fatal := none } := by
  constructor
  · simp [tun_serv_in, hr, hp]
  · intro recvd2 buf2 sa slen hr2 hsp hmiss hsz
    have hmiss2 : g_hash_table_lookup s.serv (sender_sport sa) = none := by rw [hsp]; exact hmiss
    have hout : (tun_serv_out s recvd2 buf2 sa slen).state =
        { s with serv := s.serv ++
            [(sender_sport sa, { sa := sa, slen := slen, sport := sender_sport sa })] } := by
      simp [tun_serv_out, hr2, hmiss2, hsz, init_tun_rec, insert_of_lookup_none _ _ _ hmiss2]
    rw [hout]
    constructor
    · show g_hash_table_lookup (s.serv ++ _) s.tcp_port = _
      rw [lookup_append_of_none _ _ _ hmiss, hsp]
      simp [g_hash_table_lookup]
    · simp [tun_serv_in, hr, hp]

theorem control_port_stub_witness :
    tun_serv_in
        { serv := [(5001, { sa := mk_sockaddr 5001 7, slen := 16, sport := 5001 })],
          tcp_port := 5001, udp_port := 4000, fd_lim := 2, inactivity_timeout := 10 }
        40 (mk_frame 40 5001) =
      { state :=
          { serv := [(5001, { sa := mk_sockaddr 5001 7, slen := 16, sport := 5001 })],
            tcp_port := 5001, udp_port := 4000, fd_lim := 2, inactivity_timeout := 10 },
        trace := [], fatal := none } :=
  (control_port_stub
    { serv := [(5001, { sa := mk_sockaddr 5001 7, slen := 16, sport := 5001 })],
      tcp_port := 5001, udp_port := 4000, fd_lim := 2, inactivity_timeout := 10 }
    40 (mk_frame 40 5001) (by decide) (by decide)).1

/-! The bound on the table size. -/

/-- The state after `tun_serv_out` is the state before, or the lookup missed,
the size test `size <= fd_lim` passed and one pair was added under the sender
port. -/
theorem tun_serv_out_admit_cases (s : tun_state) (recvd : Int) (buf : List Nat)
    (sa : sockaddr_in) (slen : Nat) :
    (tun_serv_out s recvd buf sa slen).state = s ∨
    (g_hash_table_lookup s.serv (sender_sport sa) = none ∧
     g_hash_table_size s.serv ≤ s.fd_lim ∧
     (tun_serv_out s recvd buf sa slen).state =
       { s with serv := s.serv ++
          [(sender_sport sa, { sa := sa, slen := slen, sport := sender_sport sa })] }) := by
  unfold tun_serv_out
  by_cases hr : recvd > 32
  · cases hl : g_hash_table_lookup s.serv (sender_sport sa) with
    | some r => left; simp [hr, hl]
    | none =>
      by_cases hs : g_hash_table_size s.serv ≤ s.fd_lim
      · right
        simp [hr, hl, hs, init_tun_rec, insert_of_lookup_none _ _ _ hl]
      · left; simp [hr, hl, hs]
  · left; simp [hr]

theorem handle_admit_cases (s : tun_state) (e : Event) :
    (handle s e).state = s ∨
    ∃ (sa : sockaddr_in) (slen : Nat),
      g_hash_table_size s.serv ≤ s.fd_lim ∧
      (handle s e).state =
        { s with serv := s.serv ++
          [(sender_sport sa, { sa := sa, slen := slen, sport := sender_sport sa })] } := by
  cases e with
  | tun recvd buf => left; simp [handle, tun_serv_in_state]
  | udp recvd buf sa slen =>
    rcases tun_serv_out_admit_cases s recvd buf sa slen with h | ⟨_, hs, h⟩
    · left; simpa [handle] using h
    · right; exact ⟨sa, slen, hs, by simpa [handle] using h⟩

theorem handle_fd_lim (s : tun_state) (e : Event) :
    (handle s e).state.fd_lim = s.fd_lim := by
  rcases handle_admit_cases s e with h | ⟨sa, slen, _, h⟩ <;> rw [h]

theorem handle_size_le (s : tun_state) (e : Event)
    (h : g_hash_table_size s.serv ≤ s.fd_lim + 1) :
    g_hash_table_size (handle s e).state.serv ≤ s.fd_lim + 1 := by
  rcases handle_admit_cases s e with h1 | ⟨sa, slen, hs, h1⟩
  · rw [h1]; exact h
  · rw [h1]
    simp only [g_hash_table_size, List.length_append, List.length_singleton] at hs ⊢
    omega

theorem run_size_le (evs : List Event) (s : tun_state)
    (h : g_hash_table_size s.serv ≤ s.fd_lim + 1) :
    g_hash_table_size (run s evs).state.serv ≤ s.fd_lim + 1 := by
  induction evs generalizing s with
  | nil => simpa [run_nil] using h
  | cons e rest ih =>
    have h1 := handle_size_le s e h
    cases hf : (handle s e).fatal with
    | some err =>
      rw [run_cons_fatal s e rest err hf]
      exact h1
    | none =>
      rw [run_cons_ok s e rest hf]
      have h2 := ih (handle s e).state (by rw [handle_fd_lim]; exact h1)
      rw [handle_fd_lim] at h2
      exact h2

theorem handle_keys_range (s : tun_state) (e : Event)
    (h : ∀ kv ∈ s.serv, 0 ≤ kv.1 ∧ kv.1 < 65536) :
    ∀ kv ∈ (handle s e).state.serv, 0 ≤ kv.1 ∧ kv.1 < 65536 := by
  rcases handle_admit_cases s e with h1 | ⟨sa, slen, _, h1⟩
  · rw [h1]; exact h
  · rw [h1]
    intro kv hkv
    rcases List.mem_append.1 hkv with h2 | h2
    · exact h kv h2
    · simp only [List.mem_singleton] at h2
      subst h2
      have hle := ntohs_le sa.sin_port_hi sa.sin_port_lo
      simp only [sender_sport]
      omega

theorem run_keys_range (evs : List Event) (s : tun_state)
    (h : ∀ kv ∈ s.serv, 0 ≤ kv.1 ∧ kv.1 < 65536) :
    ∀ kv ∈ (run s evs).state.serv, 0 ≤ kv.1 ∧ kv.1 < 65536 := by
  induction evs generalizing s with
  | nil => simpa [run_nil] using h
  | cons e rest ih =>
    cases hf : (handle s e).fatal with
    | some err =>
      rw [run_cons_fatal s e rest err hf]
      exact handle_keys_range s e h
    | none =>
      rw [run_cons_ok s e rest hf]
      exact ih _ (handle_keys_range s e h)

/-- A table of pairwise distinct 16-bit keys holds at most 65536 pairs. -/
theorem size_le_of_keys_range (t : GHashTable) (hn : (t.map Prod.fst).Nodup)
    (hr : ∀ kv ∈ t, 0 ≤ kv.1 ∧ kv.1 < 65536) :
    g_hash_table_size t ≤ 65536 := by
  have h1 : (t.map Prod.fst).toFinset.card = t.length := by
    rw [List.toFinset_card_of_nodup hn, List.length_map]
  have h2 : (t.map Prod.fst).toFinset ⊆ Finset.Ico (0 : Int) 65536 := by
    intro k hk
    simp only [List.mem_toFinset, List.mem_map] at hk
    obtain ⟨kv, hkv, rfl⟩ := hk
    simpa using hr kv hkv
  have h3 := Finset.card_le_card h2
  rw [h1, Int.card_Ico] at h3
  simpa [g_hash_table_size] using h3

theorem run_size_le_ports (tcp udp : Int) (lim : Nat) (tmo : Int) (evs : List Event) :
    g_hash_table_size (run (init_tun_state tcp udp lim tmo) evs).state.serv ≤ 65536 :=
  size_le_of_keys_range _
    (run_wf evs _ ⟨by simp [init_tun_state], by simp [init_tun_state]⟩).1
    (run_keys_range evs _ (by simp [init_tun_state]))

theorem run_append_ok_fatal (evs1 evs2 : List Event) (s : tun_state)
    (h : (run s evs1).fatal = none) :
    (run s (evs1 ++ evs2)).fatal = (run (run s evs1).state evs2).fatal := by
  induction evs1 generalizing s with
  | nil => simp [run_nil]
  | cons e rest ih =>
    cases hf : (handle s e).fatal with
    | some err2 =>
      rw [run_cons_fatal s e rest err2 hf] at h
      simp at h
    | none =>
      rw [run_cons_ok s e rest hf] at h
      rw [List.cons_append, run_cons_ok s e _ hf, run_cons_ok s e _ hf]
      exact ih _ h

theorem run_single (s : tun_state) (e : Event) :
    (run s [e]).state = (handle s e).state ∧ (run s [e]).fatal = (handle s e).fatal := by
  cases hf : (handle s e).fatal with
  | some err => rw [run_cons_fatal s e [] err hf]; exact ⟨rfl, rfl⟩
  | none => rw [run_cons_ok s e [] hf]; exact ⟨rfl, rfl⟩

theorem lookup_ports_table (n : Nat) :
    g_hash_table_lookup (ports_table n) (n : Int) = none := by
  rw [lookup_eq_none_iff]
  simp only [ports_table, List.map_map, List.mem_map, List.mem_range, Function.comp,
    not_exists, not_and]
  intro a ha he
  have : a = n := by exact_mod_cast he
  omega

/-- With room for it, the datagram from port `n` extends the table built by the
ports below `n`. -/
theorem handle_datagram_ports_table (tcp udp : Int) (lim : Nat) (tmo : Int) (n : Nat)
    (hn : n ≤ lim) (hp : n ≤ 65535) :
    handle { init_tun_state tcp udp lim tmo with serv := ports_table n } (datagram40 n 0) =
      { state := { init_tun_state tcp udp lim tmo with serv := ports_table (n + 1) },
        trace := [Call.xwrite (List.replicate 40 0)],
        fatal := none } := by
  have hs : sender_sport (mk_sockaddr n 0) = (n : Int) := sender_sport_mk_sockaddr n 0 hp
  have hl := lookup_ports_table n
  have hsz : g_hash_table_size (ports_table n) ≤ lim := by
    simpa [g_hash_table_size, ports_table] using hn
  have ht : ports_table (n + 1) = ports_table n ++ [((n : Int), port_rec n)] := by
    simp [ports_table, List.range_succ]
  have hpay : payload (List.replicate 40 0) 40 = List.replicate 40 0 := by decide
  have h40 : (40 : Int) > 32 := by decide
  simp only [handle, datagram40, tun_serv_out, h40, if_true, hs, init_tun_state, hl, hsz,
    insert_of_lookup_none _ _ _ hl, ht, hpay, init_tun_rec, port_rec]

theorem run_datagrams_from_ports (tcp udp : Int) (lim : Nat) (tmo : Int) (n : Nat)
    (hn : n ≤ lim + 1) (hp : n ≤ 65536) :
    (run (init_tun_state tcp udp lim tmo) (datagrams_from_ports n)).fatal = none ∧
    (run (init_tun_state tcp udp lim tmo) (datagrams_from_ports n)).state =
      { init_tun_state tcp udp lim tmo with serv := ports_table n } := by
  induction n with
  | zero => exact ⟨rfl, rfl⟩
  | succ k ih =>
    obtain ⟨hf, hst⟩ := ih (by omega) (by omega)
    have hd : datagrams_from_ports (k + 1) = datagrams_from_ports k ++ [datagram40 k 0] := by
      simp [datagrams_from_ports, List.range_succ]
    have hh := handle_datagram_ports_table tcp udp lim tmo k (by omega) (by omega)
    have h1 := run_single { init_tun_state tcp udp lim tmo with serv := ports_table k }
      (datagram40 k 0)
    rw [hh] at h1
    rw [hd]
    constructor
    · rw [run_append_ok_fatal _ _ _ hf, hst]; exact h1.2
    · rw [run_append_ok _ _ _ hf, hst]; exact h1.1

/-- C14 (the claim as stated fails): with `fd_lim = 65536` no sequence of steps
from the empty table reaches `fd_lim + 1 = 65537` records, because the keys are
pairwise distinct 16-bit sender ports. -/
theorem bound_not_attained_beyond_ports :
    ¬ ∃ evs : List Event,
      g_hash_table_size (run (init_tun_state 80 4000 65536 10) evs).state.serv
        = 65536 + 1 := by
  rintro ⟨evs, h⟩
  have h2 := run_size_le_ports 80 4000 65536 10 evs
  omega

/-- C14 (amended): for every `fd_lim`, starting from the empty table, after every
finite sequence of handler steps the table holds at most `fd_lim + 1` records
and at most 65536; and when `fd_lim ≤ 65535` the `fd_lim + 1` datagrams from the
distinct sender ports `0, .., fd_lim` are all admitted without a fatal error and
leave exactly `fd_lim + 1` records. -/
theorem table_bound (tcp udp : Int) (lim : Nat) (tmo : Int) :
    (∀ evs : List Event,
      g_hash_table_size (run (init_tun_state tcp udp lim tmo) evs).state.serv ≤ lim + 1 ∧
      g_hash_table_size (run (init_tun_state tcp udp lim tmo) evs).state.serv ≤ 65536) ∧
    (lim ≤ 65535 →
      (datagrams_from_ports (lim + 1)).length = lim + 1 ∧
      (run (init_tun_state tcp udp lim tmo) (datagrams_from_ports (lim + 1))).fatal = none ∧
      g_hash_table_size
        (run (init_tun_state tcp udp lim tmo) (datagrams_from_ports (lim + 1))).state.serv
        = lim + 1) := by
  constructor
  · intro evs
    exact ⟨run_size_le evs (init_tun_state tcp udp lim tmo) (by simp [init_tun_state, g_hash_table_size]),
      run_size_le_ports tcp udp lim tmo evs⟩
  · intro hl
    obtain ⟨hf, hst⟩ := run_datagrams_from_ports tcp udp lim tmo (lim + 1) (le_refl _) (by omega)
    refine ⟨by simp [datagrams_from_ports], hf, ?_⟩
    rw [hst]
    simp [g_hash_table_size, ports_table]

theorem table_bound_witness :
    (datagrams_from_ports (2 + 1)).length = 2 + 1 ∧
    (run (init_tun_state 80 4000 2 10) (datagrams_from_ports (2 + 1))).fatal = none ∧
    g_hash_table_size
      (run (init_tun_state 80 4000 2 10) (datagrams_from_ports (2 + 1))).state.serv = 2 + 1 :=
  (table_bound 80 4000 2 10).2 (by decide)

end Copycat
